import Mathlib

/-!
# Verification of the csvloader repository against its specification

Shallow embedding of the Go package `csvloader` (files `csvloader.go` and the
README).  The package loads a CSV file through Go's `encoding/csv` reader with
its default configuration, keeps a `DataFrame{Headers map[string]int,
Records [][]string}`, and offers typed per-cell getters plus a whole-table
`ToJSON`.

Modelling conventions:
* Go strings are Lean `String`s; a file's content is modelled as the text the
  selected base decoder produces (for the `utf-8` claims this is exactly the
  UTF-8 decoding of the bytes, so prepending the 3-byte UTF-8 byte-order mark
  to the bytes is prepending the character U+FEFF to the string).
* `unicode.BOMOverride` is modelled as stripping one leading U+FEFF character:
  on valid UTF-8 input the UTF-16 byte-order marks (bytes FF FE / FE FF)
  cannot occur, so stripping the UTF-8 mark is its only effect.
* Go `int` is `Int`; an out-of-bounds slice index is a run-time panic, modelled
  by the dedicated result `GetRes.panicked`.
* The `encoding/csv` reader is modelled from its documented default behaviour
  (`Comma = ','`, no comments, `LazyQuotes = false`, `TrimLeadingSpace =
  false`, `FieldsPerRecord = 0`): `\r\n` is normalised to `\n`, empty lines
  are skipped, bare fields may not contain a quote, quoted fields use `""`
  escapes, and the first record read fixes the expected field count, every
  later record with a different count failing with `ErrFieldCount`.
  Recursion is by an explicit fuel equal to `input length + 1`, which is
  sufficient because every loop iteration consumes at least one character.
-/

namespace CsvLoader

/-- Decidable equality of `Except` results, used to evaluate the loader on
concrete inputs. -/
instance {ε α : Type} [DecidableEq ε] [DecidableEq α] : DecidableEq (Except ε α) := fun x y =>
  match x, y with
  | .error a, .error b =>
    if h : a = b then .isTrue (by rw [h]) else .isFalse (by intro hh; cases hh; exact h rfl)
  | .error _, .ok _ => .isFalse (by intro hh; cases hh)
  | .ok _, .error _ => .isFalse (by intro hh; cases hh)
  | .ok a, .ok b =>
    if h : a = b then .isTrue (by rw [h]) else .isFalse (by intro hh; cases hh; exact h rfl)

/-! ## The Go `encoding/csv` reader, default configuration -/

/-- How a CSV field ended: at a comma, at an end of line, or at end of input. -/
inductive FieldEnd
  | comma
  | eol
  | eof
deriving DecidableEq, Repr

/-- Errors of the `encoding/csv` reader that the loader can encounter:
`ErrBareQuote`, `ErrQuote`, `ErrFieldCount` (the repository wraps them all,
so only their existence matters). -/
inductive CsvErr
  | bareQuote
  | quote
  | fieldCount
deriving DecidableEq, Repr

/-- Normalise `\r\n` to `\n`, as `csv.Reader.readLine` does on every input
line (including continuation lines inside quoted fields).  A `\r` not
followed by `\n` is ordinary data. -/
def normCRLF : List Char → List Char
  | '\r' :: '\n' :: rest => '\n' :: normCRLF rest
  | c :: rest => c :: normCRLF rest
  | [] => []

/-- Read a bare (unquoted) field: everything up to the next comma, newline or
end of input.  Returns the field characters, how it ended, and the rest. -/
def splitBare : List Char → List Char × FieldEnd × List Char
  | [] => ([], .eof, [])
  | c :: rest =>
    if c = ',' then ([], .comma, rest)
    else if c = '\n' then ([], .eol, rest)
    else
      let x := splitBare rest
      (c :: x.1, x.2.1, x.2.2)

/-- Read the body of a quoted field (the opening quote already consumed).
`""` is an escaped quote; after the closing quote only a comma, a newline or
end of input may follow (`ErrQuote` otherwise, also on an unterminated
field). -/
def splitQuoted : List Char → Option (List Char × FieldEnd × List Char)
  | [] => none
  | c :: rest =>
    if c = '"' then
      match rest with
      | [] => some ([], .eof, [])
      | c2 :: rest2 =>
        if c2 = '"' then
          (splitQuoted rest2).map (fun x => ('"' :: x.1, x.2.1, x.2.2))
        else if c2 = ',' then some ([], .comma, rest2)
        else if c2 = '\n' then some ([], .eol, rest2)
        else none
    else
      (splitQuoted rest).map (fun x => (c :: x.1, x.2.1, x.2.2))

/-- Read the fields of one record (`csv.Reader.readRecord`'s `parseField`
loop), with explicit fuel bounding the number of fields.  A bare field that
contains a quote character fails with `ErrBareQuote`. -/
def readFieldsF : Nat → List Char → Except CsvErr (List String × List Char)
  | 0, _ => .error .quote
  | fuel + 1, l =>
    if l.head? = some '"' then
      match splitQuoted l.tail with
      | none => .error .quote
      | some (f, .comma, rest) =>
        match readFieldsF fuel rest with
        | .error e => .error e
        | .ok (fs, rest2) => .ok (String.mk f :: fs, rest2)
      | some (f, .eol, rest) => .ok ([String.mk f], rest)
      | some (f, .eof, rest) => .ok ([String.mk f], rest)
    else
      match splitBare l with
      | (f, ed, rest) =>
        if f.contains '"' then .error .bareQuote
        else
          match ed with
          | .comma =>
            match readFieldsF fuel rest with
            | .error e => .error e
            | .ok (fs, rest2) => .ok (String.mk f :: fs, rest2)
          | .eol => .ok ([String.mk f], rest)
          | .eof => .ok ([String.mk f], rest)

/-- Skip empty lines, as `csv.Reader.readRecord` does before a record. -/
def skipEmptyLines : List Char → List Char
  | '\n' :: rest => skipEmptyLines rest
  | l => l

/-- Read one record.  `none` is `io.EOF` (no record left); a `some .error`
is a parse failure of this record. -/
def readRecord (l : List Char) : Option (Except CsvErr (List String × List Char)) :=
  let l2 := skipEmptyLines l
  if l2.isEmpty then none
  else some (readFieldsF (l2.length + 1) l2)

/-- `csv.Reader.ReadAll` after the first record fixed `FieldsPerRecord = n`:
read records until `io.EOF`, failing with `ErrFieldCount` on any record whose
field count differs from `n`. -/
def readAllF (fuel : Nat) (n : Nat) (l : List Char) : Except CsvErr (List (List String)) :=
  match fuel with
  | 0 => .error .quote
  | fuel + 1 =>
    match readRecord l with
    | none => .ok []
    | some (.error e) => .error e
    | some (.ok (rec, rest)) =>
      if rec.length = n then
        match readAllF fuel n rest with
        | .error e => .error e
        | .ok recs => .ok (rec :: recs)
      else .error .fieldCount

/-- `ReadAll` with sufficient fuel. -/
def readAll (n : Nat) (l : List Char) : Except CsvErr (List (List String)) :=
  readAllF (l.length + 1) n l

/-! ## The loader (`OpenCSV`) -/

/-- The in-memory table: `DataFrame{Headers map[string]int, Records
[][]string}`.  The Go map is modelled as its association list of entries
(keys unique in every value the code builds; theorems about arbitrary
`DataFrame`s state that invariant explicitly where they need it). -/
structure DataFrame where
  Headers : List (String × Int)
  Records : List (List String)
deriving DecidableEq, Repr

/-- The loader's failure modes (`OpenCSV`'s wrapped error messages). -/
inductive LoadErr
  | fileOpen
  | unsupportedEncoding (encoding : String)
  | headerRead
  | recordRead
deriving DecidableEq, Repr

/-- Strip one leading U+FEFF, modelling `unicode.BOMOverride` on valid UTF-8
input (the UTF-16 marks FF FE / FE FF are impossible inside valid UTF-8). -/
def stripBOM (s : String) : String :=
  match s.data with
  | '\uFEFF' :: rest => String.mk rest
  | _ => s

/-- The `switch encoding` in `OpenCSV`: the recognized names and their
decoders.  The file content is modelled as the text the base decoder
produces, so the decoder's remaining effect is the byte-order-mark strip. -/
def decoderFor (encoding : String) : Option (String → String) :=
  if encoding = "utf-8" then some stripBOM
  else if encoding = "shift-jis" ∨ encoding = "shift_jis" ∨ encoding = "sjis" then some stripBOM
  else none

/-- One `headerMap[header] = i` step of the header-map construction: a Go map
assignment (overwrite the existing entry, else append a new one). -/
def insertGo (m : List (String × Int)) (k : String) (v : Int) : List (String × Int) :=
  if m.any (fun p => p.1 = k) then m.map (fun p => if p.1 = k then (k, v) else p)
  else m ++ [(k, v)]

/-- `for i, header := range headers { headerMap[header] = i }`. -/
def mkHeaderMap (headers : List String) : List (String × Int) :=
  headers.enum.foldl (fun m p => insertGo m p.2 (Int.ofNat p.1)) []

/-- The reading stage of `OpenCSV` after decoding: `reader.Read()` for the
header row (its field count becoming `FieldsPerRecord`), `reader.ReadAll()`
for the data rows, and the header-map construction. -/
def loadText (text : String) : Except LoadErr DataFrame :=
  match readRecord (normCRLF text.data) with
  | none => .error .headerRead
  | some (.error _) => .error .headerRead
  | some (.ok (headers, rest)) =>
    match readAll headers.length rest with
    | .error _ => .error .recordRead
    | .ok records => .ok ⟨mkHeaderMap headers, records⟩

/-- `OpenCSV(filePath, encoding)`.  The file system is a function from path
to optional content (`none`: `os.Open` fails).  Mirrors the source order:
open the file first, then select the decoder, then read the header record,
then `ReadAll` the data records. -/
def OpenCSV (fs : String → Option String) (filePath : String) (encoding : String) :
    Except LoadErr DataFrame :=
  match fs filePath with
  | none => .error .fileOpen
  | some content =>
    match decoderFor encoding with
    | none => .error (.unsupportedEncoding encoding)
    | some decoder => loadText (decoder content)

/-! ## Accessor results -/

/-- The accessor errors (`getValue` and the typed getters wrap them with the
column name and row index they report). -/
inductive GoErr
  | unknownColumn (c : String)
  | rowIndexOutOfRange (i : Int)
  | intParse (c : String) (i : Int)
  | floatParse (c : String) (i : Int)
  | dateParse (c : String) (i : Int)
  | timeParse (c : String) (i : Int)
deriving DecidableEq, Repr

/-- Outcome of a Go call: an error value, a run-time panic (out-of-bounds
slice index), or a normal result. -/
inductive GetRes (α : Type)
  | err (e : GoErr)
  | panicked
  | ok (v : α)
deriving DecidableEq, Repr

/-- Functorial action on the normal result. -/
def GetRes.mapOk {α β : Type} (f : α → β) : GetRes α → GetRes β
  | .err e => .err e
  | .panicked => .panicked
  | .ok v => .ok (f v)

/-- A Go slice index `l[i]`: `some` the element when `0 ≤ i < len l`;
`none` stands for the index-out-of-range panic. -/
def goIndex {α : Type} (l : List α) (i : Int) : Option α :=
  if 0 ≤ i then l.get? i.toNat else none

/-! ## The shared addressing primitive `getValue` -/

/-- `getValue(rowIndex, columnName)`: look the column up in `Headers`
(`UnknownColumn` if absent), check `rowIndex < 0 || rowIndex >= len(Records)`
(`RowIndexOutOfRange`), then return `Records[rowIndex][idx]` — the inner
index is unprotected, so a row shorter than `idx` (or a negative `idx`)
panics. -/
def getValue (df : DataFrame) (rowIndex : Int) (columnName : String) : GetRes String :=
  match List.lookup columnName df.Headers with
  | none => .err (.unknownColumn columnName)
  | some idx =>
    if rowIndex < 0 ∨ (df.Records.length : Int) ≤ rowIndex then
      .err (.rowIndexOutOfRange rowIndex)
    else
      match goIndex df.Records rowIndex with
      | none => .panicked
      | some record =>
        match goIndex record idx with
        | none => .panicked
        | some v => .ok v

/-! ## The conversion functions of the Go standard library -/

/-- Numeric value of a digit list, most significant first. -/
def digitsToNat (ds : List Char) : Nat :=
  ds.foldl (fun acc c => acc * 10 + (c.toNat - '0'.toNat)) 0

/-- The digit part of `strconv.ParseInt` after the sign: one or more decimal
digits and nothing else, the value required to fit in a signed 64-bit
integer (`ErrRange` otherwise, which the caller also treats as failure). -/
def atoiDigits (neg : Bool) (ds : List Char) : Option Int :=
  if ds.isEmpty ∨ ¬ ds.all (fun c => c.isDigit) then none
  else
    let n := digitsToNat ds
    if neg then
      if n ≤ 2 ^ 63 then some (-(n : Int)) else none
    else
      if n ≤ 2 ^ 63 - 1 then some (n : Int) else none

/-- `strconv.Atoi` (= `ParseInt(s, 10, 0)` on a 64-bit platform): an optional
sign, then decimal digits — no whitespace, no underscores. -/
def atoiGo (s : String) : Option Int :=
  match s.data with
  | [] => none
  | c :: r =>
    if c = '+' then atoiDigits false r
    else if c = '-' then atoiDigits true r
    else atoiDigits false (c :: r)

/-- A parsed `float64`, carried exactly: a rational value, an infinity or a
NaN.  IEEE-754 rounding of the decimal value and overflow to `ErrRange` are
not modelled; no claim inspects a parsed float value. -/
inductive GoFloat
  | num (q : ℚ)
  | inf (neg : Bool)
  | nan
deriving DecidableEq, Repr

/-- Split leading decimal digits from a character list. -/
def takeDigits : List Char → List Char × List Char
  | c :: cs => if c.isDigit then (fun x => (c :: x.1, x.2)) (takeDigits cs) else ([], c :: cs)
  | [] => ([], [])

/-- `strconv.ParseFloat(s, 64)`, modelled on its decimal and special forms:
optional sign; `inf`/`infinity`/`nan` (case-insensitive); otherwise digits
with an optional fractional part (at least one digit over the two parts) and
an optional `e`/`E` exponent with its own optional sign and at least one
digit.  The hexadecimal-float and underscore-separator forms of the Go
grammar are not modelled; no claim depends on them.  The value is kept as an
exact rational. -/
def parseFloatGo (s : String) : Option GoFloat :=
  if s.data.map Char.toLower = "nan".data then some .nan
  else
  let p : Bool × List Char :=
    match s.data with
    | '+' :: r => (false, r)
    | '-' :: r => (true, r)
    | r => (false, r)
  match p with
  | (neg, body) =>
    let lower := body.map Char.toLower
    if lower = "inf".data ∨ lower = "infinity".data then some (.inf neg)
    else
      match takeDigits body with
      | (intDs, rest1) =>
        let fp : List Char × List Char :=
          match rest1 with
          | '.' :: r => takeDigits r
          | _ => ([], rest1)
        match fp with
        | (fracDs, rest2) =>
          if intDs.isEmpty ∧ fracDs.isEmpty then none
          else
            let mantissa : ℚ := (digitsToNat intDs : ℚ) + (digitsToNat fracDs : ℚ) / ((10 : ℚ) ^ fracDs.length)
            let signedM : ℚ := if neg then -mantissa else mantissa
            match rest2 with
            | [] => some (.num signedM)
            | 'e' :: er =>
              match
                (match er with
                 | '+' :: r2 => some (false, r2)
                 | '-' :: r2 => some (true, r2)
                 | r2 => some (false, r2)) with
              | some (eneg, eds) =>
                match takeDigits eds with
                | (expDs, []) =>
                  if expDs.isEmpty then none
                  else
                    let e : ℤ := if eneg then -(digitsToNat expDs : ℤ) else (digitsToNat expDs : ℤ)
                    some (.num (signedM * (10 : ℚ) ^ e))
                | _ => none
              | none => none
            | 'E' :: er =>
              match
                (match er with
                 | '+' :: r2 => some (false, r2)
                 | '-' :: r2 => some (true, r2)
                 | r2 => some (false, r2)) with
              | some (eneg, eds) =>
                match takeDigits eds with
                | (expDs, []) =>
                  if expDs.isEmpty then none
                  else
                    let e : ℤ := if eneg then -(digitsToNat expDs : ℤ) else (digitsToNat expDs : ℤ)
                    some (.num (signedM * (10 : ℚ) ^ e))
                | _ => none
              | none => none
            | _ => none

/-- A naive calendar date, what `datatypes.Date` keeps of the parsed
`time.Time`. -/
structure GoDate where
  year : Nat
  month : Nat
  day : Nat
deriving DecidableEq, Repr

/-- Gregorian leap year, as `time.Date` computes it. -/
def isLeapYear (y : Nat) : Bool :=
  y % 4 = 0 ∧ (y % 100 ≠ 0 ∨ y % 400 = 0)

/-- Days in a month, as `time`'s `daysIn`. -/
def daysIn (y m : Nat) : Nat :=
  if m = 2 then (if isLeapYear y then 29 else 28)
  else if m = 4 ∨ m = 6 ∨ m = 9 ∨ m = 11 then 30
  else 31

/-- `time.Parse("20060102", s)`: exactly four digits of year, two of month,
two of day, nothing else; the month must be 1–12 and the day must exist in
that month, else a parse error. -/
def parseDateGo (s : String) : Option GoDate :=
  match s.data with
  | [y1, y2, y3, y4, m1, m2, d1, d2] =>
    if [y1, y2, y3, y4, m1, m2, d1, d2].all (fun c => c.isDigit) then
      let y := digitsToNat [y1, y2, y3, y4]
      let m := digitsToNat [m1, m2]
      let d := digitsToNat [d1, d2]
      if 1 ≤ m ∧ m ≤ 12 ∧ 1 ≤ d ∧ d ≤ daysIn y m then some ⟨y, m, d⟩ else none
    else none
  | _ => none

/-- A naive clock time, what `datatypes.NewTime(h, m, s, 0)` keeps. -/
structure GoTime where
  hour : Nat
  minute : Nat
  second : Nat
deriving DecidableEq, Repr

/-- `time.Parse("15:04:05", s)`: one or two digits of hour (two are consumed
when two digits are present), then `:`, two digits of minute, `:`, two digits
of second, nothing else; hour 0–23, minute and second 0–59. -/
def parseTimeGo (s : String) : Option GoTime :=
  let hourSplit : Option (Nat × List Char) :=
    match s.data with
    | a :: b :: rest =>
      if a.isDigit ∧ b.isDigit then some (digitsToNat [a, b], rest)
      else if a.isDigit then some (digitsToNat [a], b :: rest)
      else none
    | [a] => if a.isDigit then some (digitsToNat [a], []) else none
    | [] => none
  match hourSplit with
  | none => none
  | some (h, rest) =>
    match rest with
    | ':' :: m1 :: m2 :: ':' :: s1 :: s2 :: [] =>
      if m1.isDigit ∧ m2.isDigit ∧ s1.isDigit ∧ s2.isDigit then
        let m := digitsToNat [m1, m2]
        let sec := digitsToNat [s1, s2]
        if h ≤ 23 ∧ m ≤ 59 ∧ sec ≤ 59 then some ⟨h, m, sec⟩ else none
      else none
    | _ => none

/-! ## The typed getters -/

/-- `GetString`: the identity getter. -/
def GetString (df : DataFrame) (rowIndex : Int) (columnName : String) : GetRes String :=
  getValue df rowIndex columnName

/-- `GetStringPtr`: `nil` (modelled `none`) on the empty cell, else the
value. -/
def GetStringPtr (df : DataFrame) (rowIndex : Int) (columnName : String) :
    GetRes (Option String) :=
  match getValue df rowIndex columnName with
  | .err e => .err e
  | .panicked => .panicked
  | .ok value => if value = "" then .ok none else .ok (some value)

/-- `GetInt`: `strconv.Atoi` on the cell, `IntParseError` naming the column
and row on failure. -/
def GetInt (df : DataFrame) (rowIndex : Int) (columnName : String) : GetRes Int :=
  match getValue df rowIndex columnName with
  | .err e => .err e
  | .panicked => .panicked
  | .ok value =>
    match atoiGo value with
    | some n => .ok n
    | none => .err (.intParse columnName rowIndex)

/-- `GetIntPtr`: `nil` on the empty cell, else `GetInt`'s parse. -/
def GetIntPtr (df : DataFrame) (rowIndex : Int) (columnName : String) :
    GetRes (Option Int) :=
  match getValue df rowIndex columnName with
  | .err e => .err e
  | .panicked => .panicked
  | .ok value =>
    if value = "" then .ok none
    else
      match atoiGo value with
      | some n => .ok (some n)
      | none => .err (.intParse columnName rowIndex)

/-- `GetFloat`: `strconv.ParseFloat(value, 64)`. -/
def GetFloat (df : DataFrame) (rowIndex : Int) (columnName : String) : GetRes GoFloat :=
  match getValue df rowIndex columnName with
  | .err e => .err e
  | .panicked => .panicked
  | .ok value =>
    match parseFloatGo value with
    | some q => .ok q
    | none => .err (.floatParse columnName rowIndex)

/-- `GetFloatPtr`: `nil` on the empty cell, else `GetFloat`'s parse. -/
def GetFloatPtr (df : DataFrame) (rowIndex : Int) (columnName : String) :
    GetRes (Option GoFloat) :=
  match getValue df rowIndex columnName with
  | .err e => .err e
  | .panicked => .panicked
  | .ok value =>
    if value = "" then .ok none
    else
      match parseFloatGo value with
      | some q => .ok (some q)
      | none => .err (.floatParse columnName rowIndex)

/-- `GetDate`: `time.Parse("20060102", value)` wrapped into
`datatypes.Date`. -/
def GetDate (df : DataFrame) (rowIndex : Int) (columnName : String) : GetRes GoDate :=
  match getValue df rowIndex columnName with
  | .err e => .err e
  | .panicked => .panicked
  | .ok value =>
    match parseDateGo value with
    | some d => .ok d
    | none => .err (.dateParse columnName rowIndex)

/-- `GetDatePtr`: `nil` on the empty cell, else `GetDate`'s parse. -/
def GetDatePtr (df : DataFrame) (rowIndex : Int) (columnName : String) :
    GetRes (Option GoDate) :=
  match getValue df rowIndex columnName with
  | .err e => .err e
  | .panicked => .panicked
  | .ok value =>
    if value = "" then .ok none
    else
      match parseDateGo value with
      | some d => .ok (some d)
      | none => .err (.dateParse columnName rowIndex)

/-- `GetTime`: `time.Parse("15:04:05", value)` wrapped into
`datatypes.NewTime(h, m, s, 0)`. -/
def GetTime (df : DataFrame) (rowIndex : Int) (columnName : String) : GetRes GoTime :=
  match getValue df rowIndex columnName with
  | .err e => .err e
  | .panicked => .panicked
  | .ok value =>
    match parseTimeGo value with
    | some t => .ok t
    | none => .err (.timeParse columnName rowIndex)

/-- `GetTimePtr`: `nil` on the empty cell, else `GetTime`'s parse. -/
def GetTimePtr (df : DataFrame) (rowIndex : Int) (columnName : String) :
    GetRes (Option GoTime) :=
  match getValue df rowIndex columnName with
  | .err e => .err e
  | .panicked => .panicked
  | .ok value =>
    if value = "" then .ok none
    else
      match parseTimeGo value with
      | some t => .ok (some t)
      | none => .err (.timeParse columnName rowIndex)

/-! ## `ToJSON`

`ToJSON` converts each row into a `map[string]string` keyed by every entry of
`Headers` (substituting `""` when the row is too short, but indexing — and
panicking — when the stored column index is negative), then serializes the
slice of maps with `json.MarshalIndent(jsonArray, "", "  ")`.  On the value
`[]map[string]string` Go's marshaller cannot fail (strings always serialize),
so the `err != nil` branch after `MarshalIndent` is modelled by a total
rendering function: object keys sorted bytewise ascending, two-space
indentation, and the `encoding/json` default string escaping. -/

/-- The hex digits `encoding/json` uses in `\u00XX` escapes (lowercase). -/
def hexDigit (n : Nat) : Char :=
  if n < 10 then Char.ofNat ('0'.toNat + n) else Char.ofNat ('a'.toNat + (n - 10))

/-- `encoding/json` string escaping with its default HTML escaping: quote,
backslash, the `\n`/`\r`/`\t` shorthands, other control characters as
`\u00XX`, `<`, `>`, `&` as `<`/`>`/`&`, and U+2028/U+2029. -/
def jsonEscapeChar (c : Char) : String :=
  if c = '"' then "\\\""
  else if c = '\\' then "\\\\"
  else if c = '\n' then "\\n"
  else if c = '\r' then "\\r"
  else if c = '\t' then "\\t"
  else if c = '<' then "\\u003c"
  else if c = '>' then "\\u003e"
  else if c = '&' then "\\u0026"
  else if c.toNat < 32 then String.mk ['\\', 'u', '0', '0', hexDigit (c.toNat / 16), hexDigit (c.toNat % 16)]
  else if c = '\u2028' then "\\u2028"
  else if c = '\u2029' then "\\u2029"
  else String.mk [c]

/-- A JSON string literal for `s`. -/
def jsonQuote (s : String) : String :=
  "\"" ++ String.join (s.data.map jsonEscapeChar) ++ "\""

/-- Lexicographic comparison of character lists by code point; on UTF-8 text
this is exactly Go's bytewise string order. -/
def charListLe : List Char → List Char → Bool
  | [], _ => true
  | _ :: _, [] => false
  | a :: as, b :: bs =>
    if a.toNat < b.toNat then true
    else if b.toNat < a.toNat then false
    else charListLe as bs

/-- Go's string order, `a <= b` bytewise. -/
def strLe (a b : String) : Bool := charListLe a.data b.data

/-- Insert a field into a key-sorted field list. -/
def insertSorted (kv : String × String) : List (String × String) → List (String × String)
  | [] => [kv]
  | h :: t => if strLe kv.1 h.1 then kv :: h :: t else h :: insertSorted kv t

/-- Sort an object's fields by key, ascending, as `encoding/json` serializes
a `map[string]string`. -/
def sortFields (l : List (String × String)) : List (String × String) :=
  l.foldr insertSorted []

/-- Render one row object at nesting depth 1 of `MarshalIndent(v, "", "  ")`:
`\x7b\x7d` when empty, else each `"key": "value"` field on its own
four-space-indented line and the closing brace at depth 1. -/
def renderRowObj (row : List (String × String)) : String :=
  match sortFields row with
  | [] => "\x7b\x7d"
  | fs =>
    "\x7b\n" ++
      String.intercalate ",\n"
        (fs.map (fun kv => "    " ++ jsonQuote kv.1 ++ ": " ++ jsonQuote kv.2)) ++
      "\n  \x7d"

/-- `json.MarshalIndent(jsonArray, "", "  ")` on a `[]map[string]string`:
total — this marshal has no failure case on this type. -/
def marshalIndentRows (rows : List (List (String × String))) : String :=
  match rows with
  | [] => "[]"
  | _ =>
    "[\n" ++ String.intercalate ",\n" (rows.map (fun row => "  " ++ renderRowObj row)) ++ "\n]"

/-- One iteration of `ToJSON`'s row loop: build the row's
`map[string]string` from every `Headers` entry.  `index < len(record)` lets a
negative index through to the unprotected `record[index]`, which panics
(`none`); a too-large index falls to the `""` branch. -/
def rowObj : List (String × Int) → List String → Option (List (String × String))
  | [], _ => some []
  | (column, index) :: hs, record =>
    if index < (record.length : Int) then
      match goIndex record index with
      | none => none
      | some v => (rowObj hs record).map (fun rest => (column, v) :: rest)
    else
      (rowObj hs record).map (fun rest => (column, "") :: rest)

/-- `ToJSON`'s loop over all records. -/
def rowObjs (headers : List (String × Int)) : List (List String) → Option (List (List (String × String)))
  | [] => some []
  | r :: rs =>
    match rowObj headers r with
    | none => none
    | some o => (rowObjs headers rs).map (fun rest => o :: rest)

/-- `ToJSON()`: `"[]"` when there are no records, else the indented marshal
of the per-row maps.  The `err != nil` branch after `MarshalIndent` is dead
on this value type; the possible abnormal outcome is the panic from a
negative stored column index. -/
def ToJSON (df : DataFrame) : GetRes String :=
  if df.Records.length = 0 then .ok "[]"
  else
    match rowObjs df.Headers df.Records with
    | none => .panicked
    | some rows => .ok (marshalIndentRows rows)

/-! ## Helper lemmas -/

/-- Every record `ReadAll` returns passed the `FieldsPerRecord` check. -/
theorem readAllF_ok_length {fuel n : Nat} {l : List Char} {recs : List (List String)}
    (h : readAllF fuel n l = .ok recs) : ∀ r ∈ recs, r.length = n := by
  induction fuel generalizing l recs with
  | zero => simp [readAllF] at h
  | succ fuel ih =>
    rw [readAllF] at h
    split at h
    · cases h
      simp
    · cases h
    · rename_i rec rest heq
      split at h
      · rename_i hlen
        split at h
        · cases h
        · rename_i recs2 htail
          cases h
          intro r hrm
          rcases List.mem_cons.mp hrm with hh | hh
          · exact hh ▸ hlen
          · exact ih htail r hh
      · cases h

/-- Positions produced by `List.enumFrom` are below `start + length`. -/
theorem enumFrom_fst_lt {α : Type} : ∀ (start : Nat) (l : List α) (p : Nat × α),
    p ∈ l.enumFrom start → p.1 < start + l.length
  | _, [], _, h => by simp at h
  | start, a :: l, p, h => by
    rcases List.mem_cons.mp h with hh | hh
    · subst hh; simp
    · have := enumFrom_fst_lt (start + 1) l p hh
      simp only [List.length_cons]
      omega

/-- `insertGo` keeps a bound satisfied by the map's values and the inserted
value. -/
theorem insertGo_forall {P : Int → Prop} {m : List (String × Int)} {k : String} {v : Int}
    (hm : ∀ p ∈ m, P p.2) (hv : P v) : ∀ p ∈ insertGo m k v, P p.2 := by
  intro p hp
  unfold insertGo at hp
  by_cases hc : m.any (fun q => q.1 = k)
  · rw [if_pos hc] at hp
    rcases List.mem_map.mp hp with ⟨q, hq, hqe⟩
    by_cases hqk : q.1 = k
    · rw [if_pos hqk] at hqe
      cases hqe
      exact hv
    · rw [if_neg hqk] at hqe
      exact hqe ▸ hm q hq
  · rw [if_neg hc] at hp
    rcases List.mem_append.mp hp with hh | hh
    · exact hm p hh
    · rcases List.mem_singleton.mp hh with rfl
      exact hv

/-- Every index the header map stores is a position of the header row. -/
theorem mkHeaderMap_bounds (headers : List String) :
    ∀ p ∈ mkHeaderMap headers, 0 ≤ p.2 ∧ p.2 < (headers.length : Int) := by
  unfold mkHeaderMap
  have main : ∀ (l : List (Nat × String)) (m : List (String × Int)),
      (∀ p ∈ m, 0 ≤ p.2 ∧ p.2 < (headers.length : Int)) →
      (∀ q ∈ l, q.1 < headers.length) →
      ∀ p ∈ l.foldl (fun m p => insertGo m p.2 (Int.ofNat p.1)) m, 0 ≤ p.2 ∧ p.2 < (headers.length : Int) := by
    intro l
    induction l with
    | nil => intro m hm _; exact hm
    | cons q l ih =>
      intro m hm hl
      simp only [List.foldl_cons]
      refine ih _
        (insertGo_forall (P := fun v => 0 ≤ v ∧ v < (headers.length : Int)) hm ?_)
        (fun q2 hq2 => hl q2 (List.mem_cons_of_mem _ hq2))
      have := hl q (List.mem_cons_self _ _)
      constructor
      · exact Int.ofNat_nonneg _
      · simp only [Int.ofNat_eq_coe]
        exact_mod_cast this
  refine main _ [] (by simp) ?_
  intro q hq
  have := enumFrom_fst_lt 0 headers q hq
  simpa using this

/-- The cell `ToJSON` stores for a column of nonnegative index `idx`: the
row's cell when the row is long enough, the empty string otherwise. -/
def cellOrEmpty (record : List String) (idx : Int) : String :=
  if idx < (record.length : Int) then ((goIndex record idx).getD "") else ""

/-- With nonnegative column indices, the row loop of `ToJSON` cannot panic
and produces one field per `Headers` entry, in entry order. -/
theorem rowObj_eq_some {hs : List (String × Int)} (record : List String)
    (hnn : ∀ p ∈ hs, 0 ≤ p.2) :
    rowObj hs record = some (hs.map fun p => (p.1, cellOrEmpty record p.2)) := by
  induction hs with
  | nil => rfl
  | cons p hs ih =>
    have hp : 0 ≤ p.2 := hnn p (List.mem_cons_self _ _)
    have ihr := ih (fun q hq => hnn q (List.mem_cons_of_mem _ hq))
    rcases p with ⟨c, idx⟩
    simp only [rowObj]
    by_cases hlt : idx < (record.length : Int)
    · rw [if_pos hlt]
      have hgi : goIndex record idx = record.get? idx.toNat := by
        simp [goIndex, hp]
      have hlt2 : idx.toNat < record.length := by omega
      rcases hget : record.get? idx.toNat with _ | v
      · rw [List.get?_eq_none] at hget
        omega
      · have hco : cellOrEmpty record idx = v := by
          unfold cellOrEmpty
          rw [if_pos hlt, hgi, hget]
          rfl
        rw [hgi, hget, ihr]
        simp [hco]
    · rw [if_neg hlt, ihr]
      simp [cellOrEmpty, hlt]

/-- The record loop of `ToJSON`, under the same hypothesis. -/
theorem rowObjs_eq_some {hs : List (String × Int)} (records : List (List String))
    (hnn : ∀ p ∈ hs, 0 ≤ p.2) :
    rowObjs hs records = some (records.map fun rec => hs.map fun p => (p.1, cellOrEmpty rec p.2)) := by
  induction records with
  | nil => rfl
  | cons r rs ih =>
    simp only [rowObjs]
    rw [rowObj_eq_some r hnn, ih]
    rfl

/-- Looking a present key up in a field list built from a key-nodup
association list finds that entry's field. -/
theorem lookup_map_of_nodup {hs : List (String × Int)} {f : String × Int → String}
    (hnd : (hs.map Prod.fst).Nodup) {p : String × Int} (hp : p ∈ hs) :
    List.lookup p.1 (hs.map fun q => (q.1, f q)) = some (f p) := by
  induction hs with
  | nil => simp at hp
  | cons q hs ih =>
    simp only [List.map_cons, List.nodup_cons] at hnd
    rcases List.mem_cons.mp hp with hh | hh
    · subst hh
      simp [List.lookup]
    · have hne : p.1 ≠ q.1 := by
        intro he
        exact hnd.1 (he ▸ List.mem_map_of_mem Prod.fst hh)
      have hbeq : (p.1 == q.1) = false := beq_eq_false_iff_ne.mpr hne
      simp only [List.map_cons, List.lookup, hbeq]
      exact ih hnd.2 hh

/-- With the column present and the row index in range, `getValue` either
panics (short row) or yields a cell — never an error. -/
theorem getValue_ok_or_panic {df : DataFrame} {i : Int} {c : String} {idx : Int}
    (ho : List.lookup c df.Headers = some idx)
    (hr : ¬(i < 0 ∨ (df.Records.length : Int) ≤ i)) :
    getValue df i c = .panicked ∨ ∃ v, getValue df i c = .ok v := by
  unfold getValue
  simp only [ho]
  rw [if_neg hr]
  rcases h1 : goIndex df.Records i with _ | rec
  · simp [h1]
  · rcases h2 : goIndex rec idx with _ | v
    · simp [h1, h2]
    · simp [h1, h2]

/-- `OpenCSV` on an opened file and a recognized encoding is `loadText` of
the decoded content. -/
theorem OpenCSV_eq_loadText {fs : String → Option String} {path enc content : String}
    {dec : String → String}
    (hfs : fs path = some content) (hdec : decoderFor enc = some dec) :
    OpenCSV fs path enc = loadText (dec content) := by
  unfold OpenCSV
  rw [hfs, hdec]

/-! ## Claim C1 -/

/-- Claim C1 counterexample: the file `"a,b\n1\n"` has a header with two
cells and a data row with one cell; the claim says it still loads
successfully, but the load fails (`ErrFieldCount` wrapped as the
record-read error), because Go's `encoding/csv` default `FieldsPerRecord`
is fixed by the header row. -/
theorem claim1_counterexample :
    OpenCSV (fun _ => some "a,b\n1\n") "file.csv" "utf-8" = .error .recordRead := by rfl

/-- Claim C1, amended: `OpenCSV` enforces the header's cell count on every
data row — whenever a load succeeds, there is a single `n` (the header's
field count) such that every stored row has exactly `n` cells and every
stored column index lies in `[0, n)`. -/
theorem claim1_load_uniform_row_length (fs : String → Option String)
    (path enc : String) (df : DataFrame)
    (h : OpenCSV fs path enc = .ok df) :
    ∃ n : Nat, (∀ rec ∈ df.Records, rec.length = n) ∧
      ∀ p ∈ df.Headers, 0 ≤ p.2 ∧ p.2 < (n : Int) := by
  unfold OpenCSV at h
  split at h
  · cases h
  · split at h
    · cases h
    · unfold loadText at h
      split at h
      · cases h
      · cases h
      · rename_i headers rest hrr
        split at h
        · cases h
        · rename_i records hra
          cases h
          unfold readAll at hra
          exact ⟨headers.length, readAllF_ok_length hra, mkHeaderMap_bounds headers⟩

/-- Claim C1 witness: a well-formed two-column file loads, and the amended
theorem applies to it. -/
theorem claim1_witness :
    ∃ n : Nat,
      (∀ rec ∈ (DataFrame.mk [("name", 0), ("age", 1)] [["Alice", "30"]]).Records,
        rec.length = n) ∧
      ∀ p ∈ (DataFrame.mk [("name", 0), ("age", 1)] [["Alice", "30"]]).Headers,
        0 ≤ p.2 ∧ p.2 < (n : Int) :=
  claim1_load_uniform_row_length (fun _ => some "name,age\nAlice,30\n") "file.csv" "utf-8"
    (DataFrame.mk [("name", 0), ("age", 1)] [["Alice", "30"]]) (by rfl)

/-! ## Claim C2 -/

/-- Claim C2 counterexample: in the table with `Headers = ["b" ↦ 1]` and the
single one-cell row `["x"]`, the column `"b"` is present and row index `0`
is in range, yet `getValue` does not return a cell — it panics on the
unprotected `Records[0][1]`. -/
theorem claim2_counterexample :
    List.lookup "b" (DataFrame.mk [("b", 1)] [["x"]]).Headers = some 1 ∧
    (0 : Int) < (DataFrame.mk [("b", 1)] [["x"]]).Records.length ∧
    getValue (DataFrame.mk [("b", 1)] [["x"]]) 0 "b" = .panicked := by
  refine ⟨by rfl, by decide, by rfl⟩

/-- Claim C2, amended: with the column present and the row index in range,
`getValue` returns the raw cell `Records[rowIndex][idx]` when the resolved
index `idx` lies within that row, and faults (index-out-of-range panic)
when the row is shorter than the resolved index requires (or the stored
index is negative). -/
theorem claim2_getValue_cell_access (df : DataFrame) (i : Int) (c : String)
    (idx : Int) (rec : List String)
    (hcol : List.lookup c df.Headers = some idx)
    (hi : 0 ≤ i) (hrec : df.Records.get? i.toNat = some rec) :
    (∀ hlt : idx.toNat < rec.length, 0 ≤ idx →
      getValue df i c = .ok (rec.get ⟨idx.toNat, hlt⟩)) ∧
    ((idx < 0 ∨ (rec.length : Int) ≤ idx) → getValue df i c = .panicked) := by
  have hlen : i.toNat < df.Records.length := by
    have := List.get?_eq_some.mp hrec
    exact this.choose
  have hrange : ¬(i < 0 ∨ (df.Records.length : Int) ≤ i) := by omega
  have hgo : goIndex df.Records i = some rec := by
    unfold goIndex
    rw [if_pos hi, hrec]
  constructor
  · intro hlt hidx
    have hgo2 : goIndex rec idx = some (rec.get ⟨idx.toNat, hlt⟩) := by
      unfold goIndex
      rw [if_pos hidx]
      exact List.get?_eq_get hlt
    unfold getValue
    simp only [hcol]
    rw [if_neg hrange]
    simp only [hgo, hgo2]
  · intro hout
    have hgo2 : goIndex rec idx = none := by
      unfold goIndex
      split
      · exact List.get?_eq_none.mpr (by omega)
      · rfl
    unfold getValue
    simp only [hcol]
    rw [if_neg hrange]
    simp only [hgo, hgo2]

/-- Claim C2 witness: both halves of the amended theorem at a concrete
table — a cell inside the row is returned, a missing trailing cell
panics. -/
theorem claim2_witness :
    getValue (DataFrame.mk [("a", 0), ("b", 1)] [["x"]]) 0 "a" = .ok "x" ∧
    getValue (DataFrame.mk [("a", 0), ("b", 1)] [["x"]]) 0 "b" = .panicked :=
  ⟨by
    have h := claim2_getValue_cell_access (DataFrame.mk [("a", 0), ("b", 1)] [["x"]])
      0 "a" 0 ["x"] (by rfl) (by decide) (by rfl)
    exact h.1 (by decide) (by decide),
   by
    have h := claim2_getValue_cell_access (DataFrame.mk [("a", 0), ("b", 1)] [["x"]])
      0 "b" 1 ["x"] (by rfl) (by decide) (by rfl)
    exact h.2 (by decide)⟩

/-! ## Claim C3 -/

/-- An encoding name outside the exact-match set selects no decoder. -/
theorem decoderFor_eq_none {enc : String}
    (h1 : enc ≠ "utf-8") (h2 : enc ≠ "shift-jis") (h3 : enc ≠ "shift_jis")
    (h4 : enc ≠ "sjis") : decoderFor enc = none := by
  unfold decoderFor
  rw [if_neg h1, if_neg (by simp [h2, h3, h4])]

/-- Claim C3 counterexample: `"latin-1"` is outside the recognized encoding
set, yet on a path that cannot be opened the result is the file-open
error, not `UnsupportedEncoding` — `os.Open` runs before the encoding
switch. -/
theorem claim3_counterexample :
    decoderFor "latin-1" = none ∧
    OpenCSV (fun _ => none) "missing.csv" "latin-1" = .error .fileOpen := by
  exact ⟨by rfl, by rfl⟩

/-- Claim C3, amended: the encoding name is validated only after the file
is opened.  On a file that opens, any name outside
`{"utf-8", "shift-jis", "shift_jis", "sjis"}` fails with
`UnsupportedEncoding` naming the value; on a file that does not open, the
result is the file-open error whatever the encoding name. -/
theorem claim3_encoding_after_open (fs : String → Option String) (path enc : String) :
    (∀ content, fs path = some content →
      enc ≠ "utf-8" → enc ≠ "shift-jis" → enc ≠ "shift_jis" → enc ≠ "sjis" →
      OpenCSV fs path enc = .error (.unsupportedEncoding enc)) ∧
    (fs path = none → OpenCSV fs path enc = .error .fileOpen) := by
  constructor
  · intro content hfs h1 h2 h3 h4
    unfold OpenCSV
    rw [hfs, decoderFor_eq_none h1 h2 h3 h4]
  · intro hfs
    unfold OpenCSV
    rw [hfs]

/-- Claim C3 witness: both halves of the amended theorem at concrete
inputs. -/
theorem claim3_witness :
    OpenCSV (fun _ => some "a\n1\n") "data.csv" "latin-1" =
      .error (.unsupportedEncoding "latin-1") ∧
    OpenCSV (fun _ => none) "data.csv" "utf-16" = .error .fileOpen :=
  ⟨(claim3_encoding_after_open (fun _ => some "a\n1\n") "data.csv" "latin-1").1
      "a\n1\n" rfl (by decide) (by decide) (by decide) (by decide),
   (claim3_encoding_after_open (fun _ => none) "data.csv" "utf-16").2 rfl⟩

/-! ## Claim C4 -/

/-- Claim C4: `ToJSON` of a table with zero data rows is the literal `"[]"`;
otherwise it is the indented marshal of one object per data row in original
row order, each object's keys being exactly the header column names, each
key mapped to that row's cell at the column's index and to `""` when the
row is shorter than that index.  The table satisfies the data model's
invariants: unique column names with zero-based (nonnegative) positions. -/
theorem claim4_toJSON_shape (df : DataFrame)
    (hkeys : (df.Headers.map Prod.fst).Nodup)
    (hnn : ∀ p ∈ df.Headers, 0 ≤ p.2) :
    (df.Records = [] → ToJSON df = .ok "[]") ∧
    (df.Records ≠ [] →
      ∃ objs : List (List (String × String)),
        ToJSON df = .ok (marshalIndentRows objs) ∧
        objs.length = df.Records.length ∧
        ∀ (k : Nat) (hk : k < df.Records.length),
          ∃ obj, objs.get? k = some obj ∧
            obj.map Prod.fst = df.Headers.map Prod.fst ∧
            ∀ p ∈ df.Headers,
              List.lookup p.1 obj =
                some (cellOrEmpty (df.Records.get ⟨k, hk⟩) p.2)) := by
  constructor
  · intro h0
    unfold ToJSON
    rw [if_pos (by simp [h0])]
  · intro hne
    have h0 : ¬ df.Records.length = 0 := by
      intro hh
      exact hne (List.length_eq_zero.mp hh)
    refine ⟨df.Records.map (fun rec => df.Headers.map fun p => (p.1, cellOrEmpty rec p.2)),
      ?_, by simp, ?_⟩
    · unfold ToJSON
      rw [if_neg h0, rowObjs_eq_some df.Records hnn]
    · intro k hk
      refine ⟨df.Headers.map fun p => (p.1, cellOrEmpty (df.Records.get ⟨k, hk⟩) p.2),
        ?_, ?_, ?_⟩
      · rw [List.get?_map, List.get?_eq_get hk]
        rfl
      · rw [List.map_map]
        rfl
      · intro p hp
        exact lookup_map_of_nodup hkeys hp

/-- Claim C4 witness: the zero-row half of the theorem at a concrete
table. -/
theorem claim4_witness : ToJSON (DataFrame.mk [("a", 0)] []) = .ok "[]" :=
  (claim4_toJSON_shape (DataFrame.mk [("a", 0)] []) (by decide) (by decide)).1 rfl

/-! ## Claim C5 -/

/-- Each typed getter reports the row-range error exactly when `getValue`
does: every other outcome of the getter (a value, a panic, or one of the
typed parse errors) is a different result. -/
theorem getter_row_err_iff (df : DataFrame) (i : Int) (c : String) :
    (GetString df i c = .err (.rowIndexOutOfRange i) ↔
      getValue df i c = .err (.rowIndexOutOfRange i)) ∧
    (GetStringPtr df i c = .err (.rowIndexOutOfRange i) ↔
      getValue df i c = .err (.rowIndexOutOfRange i)) ∧
    (GetInt df i c = .err (.rowIndexOutOfRange i) ↔
      getValue df i c = .err (.rowIndexOutOfRange i)) ∧
    (GetIntPtr df i c = .err (.rowIndexOutOfRange i) ↔
      getValue df i c = .err (.rowIndexOutOfRange i)) ∧
    (GetFloat df i c = .err (.rowIndexOutOfRange i) ↔
      getValue df i c = .err (.rowIndexOutOfRange i)) ∧
    (GetFloatPtr df i c = .err (.rowIndexOutOfRange i) ↔
      getValue df i c = .err (.rowIndexOutOfRange i)) ∧
    (GetDate df i c = .err (.rowIndexOutOfRange i) ↔
      getValue df i c = .err (.rowIndexOutOfRange i)) ∧
    (GetDatePtr df i c = .err (.rowIndexOutOfRange i) ↔
      getValue df i c = .err (.rowIndexOutOfRange i)) ∧
    (GetTime df i c = .err (.rowIndexOutOfRange i) ↔
      getValue df i c = .err (.rowIndexOutOfRange i)) ∧
    (GetTimePtr df i c = .err (.rowIndexOutOfRange i) ↔
      getValue df i c = .err (.rowIndexOutOfRange i)) := by
  rcases hg : getValue df i c with e | _ | v
  · simp [GetString, GetStringPtr, GetInt, GetIntPtr, GetFloat, GetFloatPtr,
      GetDate, GetDatePtr, GetTime, GetTimePtr, hg]
  · simp [GetString, GetStringPtr, GetInt, GetIntPtr, GetFloat, GetFloatPtr,
      GetDate, GetDatePtr, GetTime, GetTimePtr, hg]
  · by_cases hv : v = ""
    · subst hv
      simp [GetString, GetStringPtr, GetInt, GetIntPtr, GetFloat, GetFloatPtr,
        GetDate, GetDatePtr, GetTime, GetTimePtr, hg,
        show atoiGo "" = none from rfl, show parseFloatGo "" = none from rfl,
        show parseDateGo "" = none from rfl, show parseTimeGo "" = none from rfl]
    · rcases hA : atoiGo v with _ | n <;>
        rcases hF : parseFloatGo v with _ | q <;>
        rcases hD : parseDateGo v with _ | d <;>
        rcases hT : parseTimeGo v with _ | t <;>
        simp [GetString, GetStringPtr, GetInt, GetIntPtr, GetFloat, GetFloatPtr,
          GetDate, GetDatePtr, GetTime, GetTimePtr, hg, hv, hA, hF, hD, hT]

/-- Claim C5: with the column absent from the column-index mapping,
`getValue` and every typed getter fail with `UnknownColumn` whatever the
row index; with the column present, `getValue` and every typed getter fail
with `RowIndexOutOfRange` exactly when `rowIndex < 0` or
`rowIndex ≥ row count`. -/
theorem claim5_addressing_errors (df : DataFrame) (i : Int) (c : String) :
    (List.lookup c df.Headers = none →
      getValue df i c = .err (.unknownColumn c) ∧
      GetString df i c = .err (.unknownColumn c) ∧
      GetStringPtr df i c = .err (.unknownColumn c) ∧
      GetInt df i c = .err (.unknownColumn c) ∧
      GetIntPtr df i c = .err (.unknownColumn c) ∧
      GetFloat df i c = .err (.unknownColumn c) ∧
      GetFloatPtr df i c = .err (.unknownColumn c) ∧
      GetDate df i c = .err (.unknownColumn c) ∧
      GetDatePtr df i c = .err (.unknownColumn c) ∧
      GetTime df i c = .err (.unknownColumn c) ∧
      GetTimePtr df i c = .err (.unknownColumn c)) ∧
    (List.lookup c df.Headers ≠ none →
      ((getValue df i c = .err (.rowIndexOutOfRange i)) ↔
        (i < 0 ∨ (df.Records.length : Int) ≤ i)) ∧
      ((GetString df i c = .err (.rowIndexOutOfRange i)) ↔
        (i < 0 ∨ (df.Records.length : Int) ≤ i)) ∧
      ((GetStringPtr df i c = .err (.rowIndexOutOfRange i)) ↔
        (i < 0 ∨ (df.Records.length : Int) ≤ i)) ∧
      ((GetInt df i c = .err (.rowIndexOutOfRange i)) ↔
        (i < 0 ∨ (df.Records.length : Int) ≤ i)) ∧
      ((GetIntPtr df i c = .err (.rowIndexOutOfRange i)) ↔
        (i < 0 ∨ (df.Records.length : Int) ≤ i)) ∧
      ((GetFloat df i c = .err (.rowIndexOutOfRange i)) ↔
        (i < 0 ∨ (df.Records.length : Int) ≤ i)) ∧
      ((GetFloatPtr df i c = .err (.rowIndexOutOfRange i)) ↔
        (i < 0 ∨ (df.Records.length : Int) ≤ i)) ∧
      ((GetDate df i c = .err (.rowIndexOutOfRange i)) ↔
        (i < 0 ∨ (df.Records.length : Int) ≤ i)) ∧
      ((GetDatePtr df i c = .err (.rowIndexOutOfRange i)) ↔
        (i < 0 ∨ (df.Records.length : Int) ≤ i)) ∧
      ((GetTime df i c = .err (.rowIndexOutOfRange i)) ↔
        (i < 0 ∨ (df.Records.length : Int) ≤ i)) ∧
      ((GetTimePtr df i c = .err (.rowIndexOutOfRange i)) ↔
        (i < 0 ∨ (df.Records.length : Int) ≤ i))) := by
  constructor
  · intro hl
    have hv : getValue df i c = .err (.unknownColumn c) := by
      unfold getValue
      simp [hl]
    exact ⟨hv, by simp [GetString, hv], by simp [GetStringPtr, hv], by simp [GetInt, hv],
      by simp [GetIntPtr, hv], by simp [GetFloat, hv], by simp [GetFloatPtr, hv],
      by simp [GetDate, hv], by simp [GetDatePtr, hv], by simp [GetTime, hv],
      by simp [GetTimePtr, hv]⟩
  · intro hl
    rcases ho : List.lookup c df.Headers with _ | idx
    · exact absurd ho hl
    have hbase : (getValue df i c = .err (.rowIndexOutOfRange i)) ↔
        (i < 0 ∨ (df.Records.length : Int) ≤ i) := by
      constructor
      · intro he
        by_contra hr
        rcases getValue_ok_or_panic ho hr with hp | ⟨v, hv⟩
        · rw [hp] at he
          cases he
        · rw [hv] at he
          cases he
      · intro hr
        unfold getValue
        simp only [ho]
        rw [if_pos hr]
    have hiff := getter_row_err_iff df i c
    exact ⟨hbase, hiff.1.trans hbase, hiff.2.1.trans hbase, hiff.2.2.1.trans hbase,
      hiff.2.2.2.1.trans hbase, hiff.2.2.2.2.1.trans hbase, hiff.2.2.2.2.2.1.trans hbase,
      hiff.2.2.2.2.2.2.1.trans hbase, hiff.2.2.2.2.2.2.2.1.trans hbase,
      hiff.2.2.2.2.2.2.2.2.1.trans hbase, hiff.2.2.2.2.2.2.2.2.2.trans hbase⟩

/-- Claim C5 witness: an unknown column fails with `UnknownColumn` at a
valid row index, and a valid column fails with `RowIndexOutOfRange` at
`rowIndex = -1` and at `rowIndex = rowCount`. -/
theorem claim5_witness :
    GetInt (DataFrame.mk [("a", 0)] [["1"]]) 0 "zzz" = .err (.unknownColumn "zzz") ∧
    getValue (DataFrame.mk [("a", 0)] [["1"]]) (-1) "a" = .err (.rowIndexOutOfRange (-1)) ∧
    getValue (DataFrame.mk [("a", 0)] [["1"]]) 1 "a" = .err (.rowIndexOutOfRange 1) :=
  ⟨((claim5_addressing_errors (DataFrame.mk [("a", 0)] [["1"]]) 0 "zzz").1
      (by rfl)).2.2.2.1,
   (((claim5_addressing_errors (DataFrame.mk [("a", 0)] [["1"]]) (-1) "a").2
      (by decide)).1).mpr (by decide),
   (((claim5_addressing_errors (DataFrame.mk [("a", 0)] [["1"]]) 1 "a").2
      (by decide)).1).mpr (by decide)⟩

/-! ## Claim C6 -/

/-- `Atoi` on a pure digit string in 64-bit range is its base-10 value. -/
theorem atoiGo_digits {v : String} (hne : v.data ≠ [])
    (hall : v.data.all (fun ch => ch.isDigit) = true)
    (hb : digitsToNat v.data ≤ 2 ^ 63 - 1) :
    atoiGo v = some ((digitsToNat v.data : Int)) := by
  unfold atoiGo
  rcases hv : v.data with _ | ⟨ch, r⟩
  · exact absurd hv hne
  · rw [hv] at hall hb
    have hchd : ch.isDigit = true := by
      simp [List.all_cons] at hall
      exact hall.1
    have hplus : ch ≠ '+' := by
      intro he
      rw [he] at hchd
      exact absurd hchd (by decide)
    have hminus : ch ≠ '-' := by
      intro he
      rw [he] at hchd
      exact absurd hchd (by decide)
    simp only [hv]
    rw [if_neg hplus, if_neg hminus]
    unfold atoiDigits
    rw [if_neg (by simp [hall])]
    simp only [Bool.false_eq_true, if_false]
    rw [if_pos hb]

/-- Claim C6 counterexample: a cell containing `"30"` with surrounding
whitespace (`" 30"`) does not yield 30 — `strconv.Atoi` tolerates no
whitespace, so `GetInt` fails with the int-parse error. -/
theorem claim6_counterexample :
    getValue (DataFrame.mk [("n", 0)] [[" 30"]]) 0 "n" = .ok " 30" ∧
    GetInt (DataFrame.mk [("n", 0)] [[" 30"]]) 0 "n" = .err (.intParse "n" 0) :=
  ⟨by rfl, by rfl⟩

/-- Claim C6, amended: `GetInt` is the base-10 parse of the exact, untrimmed
cell string: a cell of pure digits (in 64-bit range) yields its value, and
any cell `Atoi` rejects — surrounding whitespace included — fails with an
`IntParseError` naming the column and row. -/
theorem claim6_getInt_exact_string (df : DataFrame) (i : Int) (c : String) (v : String)
    (h : getValue df i c = .ok v) :
    (v.data ≠ [] → v.data.all (fun ch => ch.isDigit) = true →
      digitsToNat v.data ≤ 2 ^ 63 - 1 → GetInt df i c = .ok (digitsToNat v.data)) ∧
    (atoiGo v = none → GetInt df i c = .err (.intParse c i)) := by
  constructor
  · intro h1 h2 h3
    simp [GetInt, h, atoiGo_digits h1 h2 h3]
  · intro hA
    simp [GetInt, h, hA]

/-- Claim C6 witness: the amended theorem at concrete cells `"30"` and
`"abc"`. -/
theorem claim6_witness :
    GetInt (DataFrame.mk [("age", 0)] [["30"]]) 0 "age" = .ok 30 ∧
    GetInt (DataFrame.mk [("age", 0)] [["abc"]]) 0 "age" = .err (.intParse "age" 0) :=
  ⟨(claim6_getInt_exact_string (DataFrame.mk [("age", 0)] [["30"]]) 0 "age" "30"
      (by rfl)).1 (by decide) (by decide) (by decide),
   (claim6_getInt_exact_string (DataFrame.mk [("age", 0)] [["abc"]]) 0 "age" "abc"
      (by rfl)).2 (by rfl)⟩

/-! ## Claim C7 -/

/-- A cell that is not exactly eight decimal digits never parses as a
date. -/
theorem parseDateGo_not8 {v : String}
    (h : ¬(v.data.length = 8 ∧ v.data.all (fun ch => ch.isDigit) = true)) :
    parseDateGo v = none := by
  unfold parseDateGo
  split
  · rename_i y1 y2 y3 y4 m1 m2 d1 d2 heq
    have hlen : v.data.length = 8 := by
      rw [heq]
      rfl
    have hall : ¬ ([y1, y2, y3, y4, m1, m2, d1, d2].all (fun ch => ch.isDigit) = true) := by
      intro hh
      exact h ⟨hlen, by rw [heq]; exact hh⟩
    rw [if_neg hall]
  · rfl

/-- Claim C7: `GetDate` parses against the fixed pattern `YYYYMMDD`: the
cell `"20240115"` yields the date 2024-01-15, and any cell that is not
eight digits — such as `"2024-01-15"` — fails with `DateParseError`. -/
theorem claim7_getDate_pattern (df : DataFrame) (i : Int) (c : String) (v : String)
    (h : getValue df i c = .ok v) :
    (v = "20240115" → GetDate df i c = .ok ⟨2024, 1, 15⟩) ∧
    (¬(v.data.length = 8 ∧ v.data.all (fun ch => ch.isDigit) = true) →
      GetDate df i c = .err (.dateParse c i)) ∧
    (v = "2024-01-15" → GetDate df i c = .err (.dateParse c i)) := by
  refine ⟨?_, ?_, ?_⟩
  · rintro rfl
    simp [GetDate, h, show parseDateGo "20240115" = some ⟨2024, 1, 15⟩ from rfl]
  · intro hp
    simp [GetDate, h, parseDateGo_not8 hp]
  · rintro rfl
    simp [GetDate, h, show parseDateGo "2024-01-15" = none from rfl]

/-- Claim C7 witness: the theorem at concrete cells. -/
theorem claim7_witness :
    GetDate (DataFrame.mk [("d", 0)] [["20240115"]]) 0 "d" = .ok ⟨2024, 1, 15⟩ ∧
    GetDate (DataFrame.mk [("d", 0)] [["2024-01-15"]]) 0 "d" = .err (.dateParse "d" 0) :=
  ⟨(claim7_getDate_pattern (DataFrame.mk [("d", 0)] [["20240115"]]) 0 "d" "20240115"
      (by rfl)).1 rfl,
   (claim7_getDate_pattern (DataFrame.mk [("d", 0)] [["2024-01-15"]]) 0 "d" "2024-01-15"
      (by rfl)).2.2 rfl⟩

/-! ## Claim C8 -/

/-- Claim C8: on a reachable cell, every pointer getter returns the absent
value `none` with no error when the raw cell text is exactly empty, and on
non-empty text its result is exactly the non-pointer getter's result with
the value wrapped — same parse, same typed parse error. -/
theorem claim8_ptr_variants (df : DataFrame) (i : Int) (c : String) :
    (getValue df i c = .ok "" →
      GetStringPtr df i c = .ok none ∧ GetIntPtr df i c = .ok none ∧
      GetFloatPtr df i c = .ok none ∧ GetDatePtr df i c = .ok none ∧
      GetTimePtr df i c = .ok none) ∧
    (∀ v, getValue df i c = .ok v → v ≠ "" →
      GetStringPtr df i c = (GetString df i c).mapOk some ∧
      GetIntPtr df i c = (GetInt df i c).mapOk some ∧
      GetFloatPtr df i c = (GetFloat df i c).mapOk some ∧
      GetDatePtr df i c = (GetDate df i c).mapOk some ∧
      GetTimePtr df i c = (GetTime df i c).mapOk some) := by
  constructor
  · intro h
    refine ⟨?_, ?_, ?_, ?_, ?_⟩ <;>
      simp [GetStringPtr, GetIntPtr, GetFloatPtr, GetDatePtr, GetTimePtr, h]
  · intro v h hv
    refine ⟨?_, ?_, ?_, ?_, ?_⟩
    · simp [GetStringPtr, GetString, GetRes.mapOk, h, hv]
    · rcases hA : atoiGo v with _ | n <;>
        simp [GetIntPtr, GetInt, GetRes.mapOk, h, hv, hA]
    · rcases hF : parseFloatGo v with _ | q <;>
        simp [GetFloatPtr, GetFloat, GetRes.mapOk, h, hv, hF]
    · rcases hD : parseDateGo v with _ | d <;>
        simp [GetDatePtr, GetDate, GetRes.mapOk, h, hv, hD]
    · rcases hT : parseTimeGo v with _ | t <;>
        simp [GetTimePtr, GetTime, GetRes.mapOk, h, hv, hT]

/-- Claim C8 witness: the empty-cell and the non-empty-cell halves at a
concrete table. -/
theorem claim8_witness :
    GetIntPtr (DataFrame.mk [("a", 0), ("b", 1)] [["", "5"]]) 0 "a" = .ok none ∧
    GetIntPtr (DataFrame.mk [("a", 0), ("b", 1)] [["", "5"]]) 0 "b" =
      (GetInt (DataFrame.mk [("a", 0), ("b", 1)] [["", "5"]]) 0 "b").mapOk some :=
  ⟨((claim8_ptr_variants (DataFrame.mk [("a", 0), ("b", 1)] [["", "5"]]) 0 "a").1
      (by rfl)).2.1,
   ((claim8_ptr_variants (DataFrame.mk [("a", 0), ("b", 1)] [["", "5"]]) 0 "b").2
      "5" (by rfl) (by decide)).2.1⟩

/-! ## Claim C9 -/

/-- Claim C9 counterexample: content that itself begins with a byte-order
mark.  `BOMOverride` strips only one leading mark, so loading the content
with a prepended mark leaves the content's own mark in the header name,
while loading it bare strips it — the two Tables differ. -/
theorem claim9_counterexample :
    OpenCSV (fun _ => some (String.mk ('\uFEFF' :: ("\uFEFFa\n1").data))) "f.csv" "utf-8" ≠
    OpenCSV (fun _ => some "\uFEFFa\n1") "f.csv" "utf-8" := by decide

/-- Claim C9, amended: for every valid UTF-8 content that does not itself
begin with a byte-order mark, loading it with a prepended UTF-8 mark under
encoding `"utf-8"` produces exactly the Table of loading it bare — the
mark is fully stripped and never appears in any cell. -/
theorem claim9_bom_invariance (fs1 fs2 : String → Option String) (path content : String)
    (hBOM : content.data.head? ≠ some '\uFEFF')
    (h1 : fs1 path = some (String.mk ('\uFEFF' :: content.data)))
    (h2 : fs2 path = some content) :
    OpenCSV fs1 path "utf-8" = OpenCSV fs2 path "utf-8" := by
  have hdec : decoderFor "utf-8" = some stripBOM := rfl
  have hs1 : stripBOM (String.mk ('\uFEFF' :: content.data)) = content := rfl
  have hs2 : stripBOM content = content := by
    unfold stripBOM
    split
    · rename_i rest heq
      exact absurd (by rw [heq]; rfl) hBOM
    · rfl
  rw [OpenCSV_eq_loadText h1 hdec, OpenCSV_eq_loadText h2 hdec, hs1, hs2]

/-- Claim C9 witness: the amended theorem on a concrete mark-free file. -/
theorem claim9_witness :
    OpenCSV (fun _ => some (String.mk ('\uFEFF' :: ("a\n1").data))) "f.csv" "utf-8" =
    OpenCSV (fun _ => some "a\n1") "f.csv" "utf-8" :=
  claim9_bom_invariance (fun _ => some (String.mk ('\uFEFF' :: ("a\n1").data)))
    (fun _ => some "a\n1") "f.csv" "a\n1" (by decide) rfl rfl

/-! ## Claim C10 -/

/-- Claim C10 counterexample: a `DataFrame` whose header map stores a
negative column index.  `index < len(record)` lets the negative index
through to the unprotected `record[index]`, so `ToJSON` panics instead of
returning a string with a nil error. -/
theorem claim10_counterexample :
    ToJSON (DataFrame.mk [("a", -1)] [["x"]]) = .panicked := by rfl

/-- Claim C10, amended: for every `DataFrame` whose stored column indices
are nonnegative (every loader-produced table in particular) — ragged rows
included — `ToJSON` returns a string with no error: the row loop
substitutes `""` for missing cells and the marshal of an array of
string-keyed string maps cannot fail. -/
theorem claim10_toJSON_total_nonneg (df : DataFrame)
    (hnn : ∀ p ∈ df.Headers, 0 ≤ p.2) : ∃ s, ToJSON df = .ok s := by
  by_cases h0 : df.Records.length = 0
  · refine ⟨"[]", ?_⟩
    unfold ToJSON
    rw [if_pos h0]
  · refine ⟨marshalIndentRows (df.Records.map fun rec =>
      df.Headers.map fun p => (p.1, cellOrEmpty rec p.2)), ?_⟩
    unfold ToJSON
    rw [if_neg h0, rowObjs_eq_some df.Records hnn]

/-- Claim C10 witness: the amended theorem at a concrete ragged table. -/
theorem claim10_witness :
    ∃ s, ToJSON (DataFrame.mk [("a", 0), ("b", 1)] [["x"], []]) = .ok s :=
  claim10_toJSON_total_nonneg (DataFrame.mk [("a", 0), ("b", 1)] [["x"], []]) (by decide)

end CsvLoader
